import Mathlib

/-!
Verification of the session-manager core of the `matrix` microservice
(Go package `session`, file `internal/server/server.go`).

Go strings are modelled as `List Char`; Go `time.Time` / `time.Duration`
values as `Int` (nanoseconds); the Go built-in `map[string]*Session` as an
association list with unique keys; the external process invocation of
`ExecuteCommand` as an oracle function from the expanded command line to an
outcome. Locks, logging and goroutine scheduling are not modelled: the
claims under verification are about the sequential state transformations.
-/

deriving instance DecidableEq for Except

namespace session

/-- Go strings, modelled as lists of characters. -/
abbrev Str := List Char

/-- `headMatch pat s` is true when `pat` occurs at the very start of `s`
(the prefix test used by `strings.ReplaceAll` at each scan position). -/
def headMatch : Str → Str → Bool
  | [], _ => true
  | _ :: _, [] => false
  | p :: ps, c :: cs => decide (p = c) && headMatch ps cs

/-- Scanner of `strings.ReplaceAll` for a non-empty pattern: walk the input
left to right; on a match emit the replacement and skip the rest of the
pattern (the skip counter counts characters still to drop); otherwise emit
the current character. -/
def raGo (pat rep : Str) : Nat → Str → Str
  | _, [] => []
  | Nat.succ k, _ :: cs => raGo pat rep k cs
  | 0, c :: cs =>
    if headMatch pat (c :: cs) then rep ++ raGo pat rep (pat.length - 1) cs
    else c :: raGo pat rep 0 cs

/-- Go `strings.ReplaceAll(s, pat, rep)`: replaces all non-overlapping
occurrences of `pat` in `s` by `rep`, scanning left to right; when `pat` is
empty it inserts `rep` before every character and at the end, matching the
documented Go behaviour. -/
def replaceAll (s pat rep : Str) : Str :=
  match pat with
  | [] => rep ++ s.foldr (fun c acc => c :: (rep ++ acc)) []
  | _ :: _ => raGo pat rep 0 s

/-- Go `strings.Contains(s, pat)` (scan of `headMatch` at every suffix). -/
def strContainsAux (pat : Str) : Str → Bool
  | [] => headMatch pat []
  | c :: cs => headMatch pat (c :: cs) || strContainsAux pat cs

/-- Go `strings.Contains(s, pat)`. -/
def strContains (s pat : Str) : Bool := strContainsAux pat s

/-- The four-character replacement `'\''` used by `shellEscape`:
close quote, backslash, quote, reopen quote. -/
def escSeq : Str := ['\'', '\\', '\'', '\'']

/-- `shellEscape` from the source: replace every single quote by `escSeq`
and wrap the whole value in single quotes. -/
def shellEscape (s : Str) : Str :=
  '\'' :: replaceAll s ['\''] escSeq ++ ['\'']

/-- The literal placeholder marker for the user's message. -/
def msgMarker : Str := "\x7b\x7b.MESSAGE\x7d\x7d".toList

/-- The literal placeholder marker for the previous command output. -/
def ctxMarker : Str := "\x7b\x7b.CONTEXT\x7d\x7d".toList

/-- The literal placeholder marker for the session file path. -/
def sessMarker : Str := "\x7b\x7b.SESSION\x7d\x7d".toList

/-- The placeholder substitution performed inline by `ExecuteCommand`:
three sequential `strings.ReplaceAll` passes, in the source's order
MESSAGE, then CONTEXT, then SESSION, each value shell-escaped. -/
def expandTemplate (tpl message context sessionFile : Str) : Str :=
  replaceAll
    (replaceAll
      (replaceAll tpl msgMarker (shellEscape message))
      ctxMarker (shellEscape context))
    sessMarker (shellEscape sessionFile)

/-- The `Session` record (the `sync.Mutex` field is not modelled). -/
structure Session where
  ID : Str
  UserID : Str
  ThreadRootEvent : Str
  LastActivity : Int
  Context : Str
  Command : Str
  SessionFile : Str
deriving DecidableEq

/-- The `Manager` record (logger, `sync.RWMutex` and the raw channel are
not modelled; `stopClosed` records whether `close(stopCleanup)` has run). -/
structure Manager where
  sessions : List (Str × Session)
  sessionTimeout : Int
  cleanupInterval : Int
  defaultCommand : Str
  sessionDir : Str
  stopClosed : Bool
deriving DecidableEq

/-- Lookup in the Go map `m.sessions` (association list model). -/
def mapFind : List (Str × Session) → Str → Option Session
  | [], _ => none
  | (k', v) :: t, k => if k' = k then some v else mapFind t k

/-- Store into the Go map `m.sessions`: overwrite the binding for `k` if
present, else append a new binding. -/
def mapInsert : List (Str × Session) → Str → Session → List (Str × Session)
  | [], k, v => [(k, v)]
  | (k', v') :: t, k, v =>
    if k' = k then (k, v) :: t else (k', v') :: mapInsert t k v

/-- `filepath.Join(dir, file)` for the clean, dot-free paths this program
builds. -/
def joinPath (dir file : Str) : Str :=
  if dir = [] then file else dir ++ '/' :: file

/-- Two's-complement wrap-around of signed 64-bit integer arithmetic: the
representative of `x` modulo `2 ^ 64` lying in `[-2 ^ 63, 2 ^ 63)` (the
literals are `2 ^ 63` and `2 ^ 64`). -/
def wrap64 (x : Int) : Int :=
  (x + 9223372036854775808) % 18446744073709551616 - 9223372036854775808

/-- `NewManager`: seconds are converted to a nanosecond duration by the
wrapping 64-bit multiplication `time.Duration(sec) * time.Second`; a zero
resulting duration is replaced by 10 minutes; an empty session directory
is replaced by `/tmp/pi-sessions`. The `os.MkdirAll` side effect and the
cleanup goroutine launch are not modelled. -/
def NewManager (sessionTimeoutSeconds : Int) (defaultCommand sessionDir : Str) : Manager :=
  let sessionTimeout0 := wrap64 (sessionTimeoutSeconds * 1000000000)
  let sessionTimeout := if sessionTimeout0 = 0 then 600 * 1000000000 else sessionTimeout0
  let sessionDir' := if sessionDir = [] then "/tmp/pi-sessions".toList else sessionDir
  { sessions := []
    sessionTimeout := sessionTimeout
    cleanupInterval := 60 * 1000000000
    defaultCommand := defaultCommand
    sessionDir := sessionDir'
    stopClosed := false }

/-- `Stop` calls `close(m.stopCleanup)`. Per the Go language specification,
`close` on an already-closed channel panics; the panic is modelled as the
error branch. -/
def Stop (m : Manager) : Except Str Manager :=
  if m.stopClosed then Except.error ("close of closed channel".toList)
  else Except.ok { m with stopClosed := true }

/-- An event the `select` in `cleanupLoop` can wake on: a ticker tick, or
the receive from `stopCleanup` completing. -/
inductive LoopSignal where
  | tick
  | stopObserved
deriving DecidableEq

/-- A receive from `stopCleanup` can complete exactly when the channel has
been closed (nothing is ever sent on it). -/
def stopSignalReady (m : Manager) : Bool := m.stopClosed

/-- One iteration of `cleanupLoop`: a tick runs `Cleanup` and continues
(`some`), observing the stop signal returns from the loop (`none`). -/
def Cleanup (m : Manager) (now : Int) : Manager :=
  { m with
    sessions := m.sessions.filter
      (fun kv => ! decide (now - kv.2.LastActivity > m.sessionTimeout)) }

/-- One iteration of `cleanupLoop` as a step function on the manager. -/
def cleanupLoopStep (m : Manager) (now : Int) : LoopSignal → Option Manager
  | LoopSignal.tick => some (Cleanup m now)
  | LoopSignal.stopObserved => none

/-- `GetSessionKey`: thread-root branch strips `$` and maps `-` to `_`;
otherwise the user ID with `:` mapped to `_`. -/
def GetSessionKey (threadRootEventID userID : Str) : Str :=
  if threadRootEventID ≠ [] then
    replaceAll (replaceAll threadRootEventID ['$'] []) ['-'] ['_']
  else
    replaceAll userID [':'] ['_']

/-- `GetOrCreateSession`: look up the key; if absent create and insert a
fresh session; if present update `LastActivity` and backfill `Command`
only when the stored template is empty. Returns the new store and the
returned session. -/
def GetOrCreateSession (m : Manager) (threadRootEventID userID commandTemplate : Str)
    (now : Int) : Manager × Session :=
  let key := GetSessionKey threadRootEventID userID
  match mapFind m.sessions key with
  | none =>
    let sessionFile := joinPath m.sessionDir ("thread_".toList ++ key ++ ".jsonl".toList)
    let s : Session :=
      { ID := key
        UserID := userID
        ThreadRootEvent := threadRootEventID
        LastActivity := now
        Context := []
        Command := commandTemplate
        SessionFile := sessionFile }
    ({ m with sessions := mapInsert m.sessions key s }, s)
  | some s =>
    let s' : Session :=
      { s with
        LastActivity := now
        Command := if commandTemplate ≠ [] ∧ s.Command = [] then commandTemplate else s.Command }
    ({ m with sessions := mapInsert m.sessions key s' }, s')

/-- Outcome of the external invocation `cmd.CombinedOutput()` raced against
the one-hour timer: the command completed with combined output and an
optional error string, or the timer fired first. -/
inductive RunOutcome where
  | completed (output : Str) (err : Option Str)
  | timedOut
deriving DecidableEq

/-- Error text of the no-template failure. -/
def noTemplateMsg : Str := "no command template configured".toList

/-- Error text of the timeout failure (`60 * time.Minute` prints `1h0m0s`). -/
def timeoutMsg : Str := "command timed out after 1h0m0s".toList

/-- `ExecuteCommand`: updates `LastActivity` at call start, resolves the
effective template (session's, else process default), fails before running
anything when both are empty, otherwise expands the template and invokes
the external command through the oracle `run`. On success the context is
overwritten with the output; on any failure the context is untouched. -/
def ExecuteCommand (m : Manager) (session : Session) (message : Str) (now : Int)
    (run : Str → RunOutcome) : Session × Except Str Str :=
  let session1 := { session with LastActivity := now }
  let tpl := if session1.Command = [] then m.defaultCommand else session1.Command
  if tpl = [] then (session1, Except.error noTemplateMsg)
  else
    let fullCommand := expandTemplate tpl message session1.Context session1.SessionFile
    match run fullCommand with
    | RunOutcome.timedOut => (session1, Except.error timeoutMsg)
    | RunOutcome.completed out none =>
      ({ session1 with Context := out }, Except.ok out)
    | RunOutcome.completed out (some errStr) =>
      if strContains out ("context deadline exceeded".toList)
          || strContains errStr ("timeout".toList) then
        (session1, Except.error timeoutMsg)
      else
        (session1,
         Except.error ("command failed: ".toList ++ errStr ++ " - ".toList ++ out))

/-! ## A POSIX shell-word reader (specification side, for claim C1)

`shellParseWord` reads one word the way a POSIX shell lexes it: inside
single quotes every character is literal until the closing quote; outside
quotes a single quote opens a quoted segment, a backslash makes the next
character literal, ordinary safe characters stand for themselves, and any
unquoted shell metacharacter ends the attempt (`none`): the input is then
not a single safe word. -/

/-- Characters with syntactic meaning to a POSIX shell outside quotes. -/
def shellMeta : Str :=
  [' ', '\t', '\n', '"', '|', '&', ';', '<', '>', '(', ')', '$',
   Char.ofNat 96, '*', '?', '[', ']', '#', '~', '!', Char.ofNat 123, Char.ofNat 125]

/-- A character a POSIX shell treats as a plain literal outside quotes. -/
def shellSafeChar (c : Char) : Bool := ! shellMeta.contains c

/-- Lexing mode of the shell-word reader: outside quotes, inside single
quotes, or immediately after an unquoted backslash. -/
inductive SpMode where
  | plain
  | quoted
  | escaped
deriving DecidableEq

/-- Shell-word reader. -/
def spGo : SpMode → Str → Option Str
  | SpMode.plain, [] => some []
  | SpMode.quoted, [] => none
  | SpMode.escaped, [] => none
  | SpMode.plain, c :: cs =>
    if c = '\'' then spGo SpMode.quoted cs
    else if c = '\\' then spGo SpMode.escaped cs
    else if shellSafeChar c then (spGo SpMode.plain cs).map (fun t => c :: t)
    else none
  | SpMode.quoted, c :: cs =>
    if c = '\'' then spGo SpMode.plain cs
    else (spGo SpMode.quoted cs).map (fun t => c :: t)
  | SpMode.escaped, c :: cs => (spGo SpMode.plain cs).map (fun t => c :: t)

/-- Parse a whole input as one shell word. -/
def shellParseWord (s : Str) : Option Str := spGo SpMode.plain s

/-! ## Lemmas about `replaceAll` -/

theorem headMatch_append_self (l t : Str) : headMatch l (l ++ t) = true := by
  induction l with
  | nil => rfl
  | cons c cs ih => simp [headMatch, ih]

theorem raGo_skip (pat rep : Str) (l t : Str) :
    raGo pat rep l.length (l ++ t) = raGo pat rep 0 t := by
  induction l with
  | nil => rfl
  | cons c cs ih => simpa [raGo] using ih

theorem replaceAll_nil (p : Char) (ps rep : Str) :
    replaceAll [] (p :: ps) rep = [] := rfl

theorem replaceAll_head (pat : Str) (hpat : pat ≠ []) (t rep : Str) :
    replaceAll (pat ++ t) pat rep = rep ++ replaceAll t pat rep := by
  match pat, hpat with
  | p :: ps, _ =>
    show raGo (p :: ps) rep 0 ((p :: ps) ++ t) = rep ++ raGo (p :: ps) rep 0 t
    rw [List.cons_append]
    rw [show raGo (p :: ps) rep 0 (p :: (ps ++ t))
        = if headMatch (p :: ps) (p :: (ps ++ t)) then
            rep ++ raGo (p :: ps) rep ((p :: ps).length - 1) (ps ++ t)
          else p :: raGo (p :: ps) rep 0 (ps ++ t) from rfl]
    rw [show (p :: (ps ++ t)) = (p :: ps) ++ t from rfl, headMatch_append_self]
    simp only [if_true, List.length_cons, Nat.add_sub_cancel]
    rw [show ps.length = ps.length from rfl] at *
    rw [show raGo (p :: ps) rep ps.length (ps ++ t) = raGo (p :: ps) rep 0 t from
      raGo_skip (p :: ps) rep ps t]

theorem replaceAll_miss (pat : Str) (hpat : pat ≠ []) (rep : Str) (c : Char) (t : Str)
    (h : headMatch pat (c :: t) = false) :
    replaceAll (c :: t) pat rep = c :: replaceAll t pat rep := by
  match pat, hpat with
  | p :: ps, _ =>
    show raGo (p :: ps) rep 0 (c :: t) = c :: raGo (p :: ps) rep 0 t
    rw [show raGo (p :: ps) rep 0 (c :: t)
        = if headMatch (p :: ps) (c :: t) then
            rep ++ raGo (p :: ps) rep ((p :: ps).length - 1) t
          else c :: raGo (p :: ps) rep 0 t from rfl]
    rw [h]
    simp

theorem replaceAll_empty_input (pat rep : Str) (hpat : pat ≠ []) :
    replaceAll [] pat rep = [] := by
  match pat, hpat with
  | p :: ps, _ => rfl

theorem replaceAll_self (pat rep : Str) (hpat : pat ≠ []) :
    replaceAll pat pat rep = rep := by
  have h1 := replaceAll_head pat hpat [] rep
  rw [List.append_nil, replaceAll_empty_input pat rep hpat, List.append_nil] at h1
  exact h1

theorem strContains_cons_false (pat : Str) (c : Char) (t : Str)
    (h : strContains (c :: t) pat = false) :
    headMatch pat (c :: t) = false ∧ strContains t pat = false := by
  have h' := h
  unfold strContains strContainsAux at h'
  exact ⟨by cases hm : headMatch pat (c :: t) <;> simp [hm] at h' ⊢,
         by cases hm : strContainsAux pat t <;> simp [hm, strContains] at h' ⊢⟩

theorem replaceAll_not_contained (pat : Str) (hpat : pat ≠ []) (rep : Str) :
    ∀ s : Str, strContains s pat = false →
    replaceAll s pat rep = s := by
  intro s
  induction s with
  | nil => intro _; exact replaceAll_empty_input pat rep hpat
  | cons c t ih =>
    intro h
    obtain ⟨h1, h2⟩ := strContains_cons_false pat c t h
    rw [replaceAll_miss pat hpat rep c t h1, ih h2]

theorem replaceAll_single_cons (a : Char) (rep : Str) (c : Char) (cs : Str) :
    replaceAll (c :: cs) [a] rep =
      if a = c then rep ++ replaceAll cs [a] rep else c :: replaceAll cs [a] rep := by
  by_cases h : a = c
  · subst h
    rw [if_pos rfl]
    exact replaceAll_head [a] (by simp) cs rep
  · rw [if_neg h]
    apply replaceAll_miss [a] (by simp) rep c cs
    simp [headMatch, h]

theorem replaceAll_single_delete (a : Char) :
    ∀ s : Str, replaceAll s [a] [] = s.filter (fun c => ! decide (c = a)) := by
  intro s
  induction s with
  | nil => rfl
  | cons c cs ih =>
    rw [replaceAll_single_cons, List.filter_cons]
    by_cases h : a = c
    · subst h
      simp [ih]
    · have h' : c ≠ a := fun hh => h hh.symm
      simp [if_neg h, h', ih]

theorem replaceAll_single_map (a b : Char) :
    ∀ s : Str, replaceAll s [a] [b] = s.map (fun c => if c = a then b else c) := by
  intro s
  induction s with
  | nil => rfl
  | cons c cs ih =>
    rw [replaceAll_single_cons, List.map_cons]
    by_cases h : a = c
    · subst h
      simp [ih]
    · have h' : c ≠ a := fun hh => h hh.symm
      simp [if_neg h, h', ih]

/-! ## Claim C1: escaping round-trips through shell-word parsing -/

theorem replaceAll_quote_cons_quote (cs : Str) :
    replaceAll ('\'' :: cs) ['\''] escSeq = escSeq ++ replaceAll cs ['\''] escSeq := by
  have := replaceAll_head ['\''] (by simp) cs escSeq
  simpa using this

theorem replaceAll_quote_cons_other (c : Char) (hc : c ≠ '\'') (cs : Str) :
    replaceAll (c :: cs) ['\''] escSeq = c :: replaceAll cs ['\''] escSeq := by
  apply replaceAll_miss ['\''] (by simp) escSeq c cs
  simp [headMatch]
  intro h
  exact absurd h.symm hc

theorem spGo_quoted_escaped (s : Str) : ∀ rest : Str,
    spGo SpMode.quoted (replaceAll s ['\''] escSeq ++ '\'' :: rest) =
      (spGo SpMode.plain rest).map (fun t => s ++ t) := by
  induction s with
  | nil =>
    intro rest
    show spGo SpMode.quoted ('\'' :: rest) = _
    rw [show spGo SpMode.quoted ('\'' :: rest) = spGo SpMode.plain rest from rfl]
    cases spGo SpMode.plain rest <;> simp
  | cons c cs ih =>
    intro rest
    by_cases hc : c = '\''
    · subst hc
      rw [replaceAll_quote_cons_quote]
      show spGo SpMode.quoted ('\'' :: '\\' :: '\'' :: '\'' ::
        (replaceAll cs ['\''] escSeq ++ '\'' :: rest)) = _
      rw [show spGo SpMode.quoted ('\'' :: '\\' :: '\'' :: '\'' ::
          (replaceAll cs ['\''] escSeq ++ '\'' :: rest)) =
          (spGo SpMode.quoted (replaceAll cs ['\''] escSeq ++ '\'' :: rest)).map
            (fun t => '\'' :: t) from rfl]
      rw [ih rest]
      cases spGo SpMode.plain rest <;> simp
    · rw [replaceAll_quote_cons_other c hc cs]
      show spGo SpMode.quoted (c :: (replaceAll cs ['\''] escSeq ++ '\'' :: rest)) = _
      rw [show spGo SpMode.quoted (c :: (replaceAll cs ['\''] escSeq ++ '\'' :: rest)) =
          if c = '\'' then spGo SpMode.plain (replaceAll cs ['\''] escSeq ++ '\'' :: rest)
          else (spGo SpMode.quoted (replaceAll cs ['\''] escSeq ++ '\'' :: rest)).map
            (fun t => c :: t) from rfl]
      rw [if_neg hc, ih rest]
      cases spGo SpMode.plain rest <;> simp

/-- C1: every string substituted into the command template is escaped by
replacing each single quote with the close-escape-reopen sequence and
wrapping the value in single quotes, and parsing the escaped value back as
a POSIX shell-quoted word recovers exactly the original string — so the
value is passed to the shell as one literal word and cannot inject
commands. -/
theorem shellEscape_roundtrip (s : Str) :
    shellParseWord (shellEscape s) = some s := by
  show spGo SpMode.plain ('\'' :: (replaceAll s ['\''] escSeq ++ ['\''])) = some s
  rw [show spGo SpMode.plain ('\'' :: (replaceAll s ['\''] escSeq ++ ['\''])) =
      spGo SpMode.quoted (replaceAll s ['\''] escSeq ++ ['\'']) from rfl]
  have h := spGo_quoted_escaped s []
  rw [show ('\'' :: ([] : Str)) = ['\''] from rfl] at h
  rw [h]
  rw [show spGo SpMode.plain ([] : Str) = some [] from rfl]
  simp

/-! ## Claim C8: the key resolver -/

/-- Modelled from the spec's words (refinement side of claim C8): for a
non-empty thread root, the key is the thread root with every `$` removed
and every `-` replaced by `_`; for an empty thread root, the key is the
owner identity with every `:` replaced by `_`. -/
def resolveKeySpec (threadRoot ownerIdentity : Str) : Str :=
  if threadRoot ≠ [] then
    (threadRoot.filter (fun c => ! decide (c = '$'))).map
      (fun c => if c = '-' then '_' else c)
  else
    ownerIdentity.map (fun c => if c = ':' then '_' else c)

/-- C8: `GetSessionKey` is a pure function computing exactly the
transliteration the spec describes: `$` stripped and `-` mapped to `_` on a
non-empty thread root, `:` mapped to `_` on the owner identity otherwise;
equal inputs trivially give equal keys since it is a function. -/
theorem getSessionKey_matches_spec (threadRoot ownerIdentity : Str) :
    GetSessionKey threadRoot ownerIdentity = resolveKeySpec threadRoot ownerIdentity := by
  unfold GetSessionKey resolveKeySpec
  by_cases h : threadRoot = []
  · simp [h, replaceAll_single_map]
  · simp only [h, ne_eq, not_false_iff, if_true]
    rw [replaceAll_single_delete, replaceAll_single_map]

/-! ## Claim C6: eviction removes exactly the idle sessions -/

/-- C6: after `Cleanup m now`, a (key, session) binding is in the store
exactly when it was there before and its idle time `now - lastActivity`
does not exceed the timeout; every binding with strictly greater idle time
is removed, every other binding survives unchanged. -/
theorem cleanup_evicts_exactly_idle (m : Manager) (now : Int) (kv : Str × Session) :
    kv ∈ (Cleanup m now).sessions ↔
      kv ∈ m.sessions ∧ ¬ now - kv.2.LastActivity > m.sessionTimeout := by
  simp [Cleanup, List.mem_filter]

/-! ## Claim C9 (corrected): `NewManager` defaulting under int64 wrap -/

theorem wrap64_eq_self (x : Int) (h1 : -9223372036854775808 ≤ x)
    (h2 : x < 9223372036854775808) : wrap64 x = x := by
  unfold wrap64
  rw [Int.emod_eq_of_lt (by omega) (by omega)]
  omega

/-- C9 counterexample: at `sessionTimeoutSeconds = -2 ^ 55`
(`-36028797018963968`), the wrapping 64-bit product with `10 ^ 9` is a
multiple of `2 ^ 64` and wraps to exactly 0, so `NewManager` substitutes
the 10-minute default — this negative timeout is not kept as given. -/
theorem newManager_wrap_counterexample :
    (-36028797018963968 : Int) < 0 ∧
    (NewManager (-36028797018963968) [] ['d']).sessionTimeout = 600 * 1000000000 ∧
    (NewManager (-36028797018963968) [] ['d']).sessionTimeout ≠
      (-36028797018963968) * 1000000000 := by
  decide

/-- C9 amended: a configured session timeout of 0 seconds is replaced by
10 minutes (600 seconds, in nanoseconds) and an empty session directory by
`/tmp/pi-sessions`; a negative timeout is kept as given whenever its
nanosecond product does not overflow a signed 64-bit integer — extreme
negative values whose wrapped product is 0 (multiples of `-2 ^ 55`) get
the 10-minute default instead. -/
theorem newManager_defaults (sec : Int) (defCmd dir : Str) :
    (sec = 0 → (NewManager sec defCmd dir).sessionTimeout = 600 * 1000000000) ∧
    (dir = [] → (NewManager sec defCmd dir).sessionDir = "/tmp/pi-sessions".toList) ∧
    (sec < 0 → -9223372036854775808 ≤ sec * 1000000000 →
      (NewManager sec defCmd dir).sessionTimeout = sec * 1000000000) := by
  refine ⟨?_, ?_, ?_⟩
  · intro h
    subst h
    have h0 : wrap64 0 = 0 := by decide
    simp [NewManager, h0]
  · intro h
    simp [NewManager, h]
  · intro h1 h2
    have hw : wrap64 (sec * 1000000000) = sec * 1000000000 :=
      wrap64_eq_self (sec * 1000000000) h2 (by omega)
    have hne : sec * 1000000000 ≠ 0 := by omega
    simp [NewManager, hw, hne]

/-- Witness for the amended C9 at concrete inputs. -/
theorem newManager_defaults_witness :
    (NewManager 0 [] []).sessionTimeout = 600 * 1000000000 ∧
    (NewManager 0 [] []).sessionDir = "/tmp/pi-sessions".toList ∧
    (NewManager (-3) [] ['d']).sessionTimeout = (-3) * 1000000000 :=
  ⟨(newManager_defaults 0 [] []).1 rfl,
   (newManager_defaults 0 [] []).2.1 rfl,
   (newManager_defaults (-3) [] ['d']).2.2 (by decide) (by decide)⟩

/-! ## Claim C10: `Stop` may be called at most once -/

/-- C10: on a manager whose stop channel is not yet closed, the first
`Stop` closes it (so the cleanup loop's receive becomes ready and the loop
returns on observing it), and a second `Stop` panics with Go's
close-of-closed-channel runtime error. -/
theorem stop_at_most_once (m : Manager) (now : Int) (h : m.stopClosed = false) :
    Stop m = Except.ok { m with stopClosed := true } ∧
    stopSignalReady { m with stopClosed := true } = true ∧
    cleanupLoopStep { m with stopClosed := true } now LoopSignal.stopObserved = none ∧
    Stop { m with stopClosed := true } =
      Except.error ("close of closed channel".toList) := by
  refine ⟨?_, rfl, rfl, ?_⟩
  · simp [Stop, h]
  · simp [Stop]

/-- The manager as built by `NewManager` with an unset timeout, no default
command and the default directory; shared test fixture. -/
def mgr0 : Manager := NewManager 0 [] []

/-- Witness for C10 at a concrete manager. -/
theorem stop_at_most_once_witness :
    Stop mgr0 = Except.ok { mgr0 with stopClosed := true } ∧
    stopSignalReady { mgr0 with stopClosed := true } = true ∧
    cleanupLoopStep { mgr0 with stopClosed := true } 7 LoopSignal.stopObserved = none ∧
    Stop { mgr0 with stopClosed := true } =
      Except.error ("close of closed channel".toList) :=
  stop_at_most_once mgr0 7 rfl

/-! ## Store lemmas -/

theorem mapFind_insert_self (l : List (Str × Session)) (k : Str) (v : Session) :
    mapFind (mapInsert l k v) k = some v := by
  induction l with
  | nil => simp [mapInsert, mapFind]
  | cons kv t ih =>
    obtain ⟨k', v'⟩ := kv
    by_cases h : k' = k
    · simp [mapInsert, mapFind, h]
    · simp [mapInsert, mapFind, h, ih]

theorem mapInsert_length_of_found (l : List (Str × Session)) (k : Str) (v v' : Session)
    (h : mapFind l k = some v') : (mapInsert l k v).length = l.length := by
  induction l with
  | nil => simp [mapFind] at h
  | cons kv t ih =>
    obtain ⟨k', v''⟩ := kv
    by_cases hk : k' = k
    · simp [mapInsert, hk]
    · simp only [mapFind, hk, if_false] at h
      simp [mapInsert, hk, ih h]

/-- Shape of `GetOrCreateSession` when the key is absent. -/
theorem getOrCreate_fresh (m : Manager) (T u tpl : Str) (now : Int)
    (h : mapFind m.sessions (GetSessionKey T u) = none) :
    GetOrCreateSession m T u tpl now =
      (let key := GetSessionKey T u
       let s : Session :=
         { ID := key
           UserID := u
           ThreadRootEvent := T
           LastActivity := now
           Context := []
           Command := tpl
           SessionFile := joinPath m.sessionDir ("thread_".toList ++ key ++ ".jsonl".toList) }
       ({ m with sessions := mapInsert m.sessions key s }, s)) := by
  unfold GetOrCreateSession
  simp only [h]

/-- Shape of `GetOrCreateSession` when the key is present. -/
theorem getOrCreate_found (m : Manager) (T u tpl : Str) (now : Int) (s : Session)
    (h : mapFind m.sessions (GetSessionKey T u) = some s) :
    GetOrCreateSession m T u tpl now =
      (let s' : Session :=
         { s with
           LastActivity := now
           Command := if tpl ≠ [] ∧ s.Command = [] then tpl else s.Command }
       ({ m with sessions := mapInsert m.sessions (GetSessionKey T u) s' }, s')) := by
  unfold GetOrCreateSession
  simp only [h]

/-! ## Claim C2 (corrected): the owner field is never updated on reuse -/

/-- C2 counterexample fixture: a store holding one thread-bound session
created by alice. -/
def cexOwnerMgr : Manager :=
  (GetOrCreateSession mgr0 ("$t1".toList) ("@alice:example.org".toList) [] 0).1

/-- C2 counterexample: bob's call resolves to alice's session, yet the
returned session's owner is still alice, not bob — refuting the claim that
the owner is updated to the most recent sender. -/
theorem getOrCreate_owner_not_updated_cex :
    (GetOrCreateSession cexOwnerMgr ("$t1".toList) ("@bob:example.org".toList)
        [] 1).2.UserID = "@alice:example.org".toList ∧
    (GetOrCreateSession cexOwnerMgr ("$t1".toList) ("@bob:example.org".toList)
        [] 1).2.UserID ≠ "@bob:example.org".toList := by
  decide

/-- C2 amended: a call of `GetOrCreateSession` that resolves to an
existing session updates `lastActivity` (and backfills the template) but
leaves the `owner` field unchanged: the recorded owner stays whatever it
was — the creator's identity — not the most recent sender's. -/
theorem getOrCreate_keeps_owner (m : Manager) (T u tpl : Str) (now : Int) (s : Session)
    (h : mapFind m.sessions (GetSessionKey T u) = some s) :
    (GetOrCreateSession m T u tpl now).2.UserID = s.UserID ∧
    (GetOrCreateSession m T u tpl now).2.LastActivity = now := by
  rw [getOrCreate_found m T u tpl now s h]
  exact ⟨rfl, rfl⟩

/-- Witness for the amended C2 at concrete inputs. -/
theorem getOrCreate_keeps_owner_witness :
    (GetOrCreateSession cexOwnerMgr ("$t1".toList) ("@bob:example.org".toList)
        [] 1).2.UserID =
      (GetOrCreateSession mgr0 ("$t1".toList) ("@alice:example.org".toList) [] 0).2.UserID ∧
    (GetOrCreateSession cexOwnerMgr ("$t1".toList) ("@bob:example.org".toList)
        [] 1).2.LastActivity = 1 :=
  getOrCreate_keeps_owner cexOwnerMgr ("$t1".toList) ("@bob:example.org".toList) [] 1
    (GetOrCreateSession mgr0 ("$t1".toList) ("@alice:example.org".toList) [] 0).2
    (by decide)

/-! ## Claim C7: thread continuity -/

/-- C7: for a (non-empty) thread root `T`, after a first
`getOrCreate(T, userA, tplA)` on a store where `T`'s key is fresh, a second
`getOrCreate(T, userB, tplB)` returns the very session of the first call
(only `lastActivity` moved, plus the empty-template backfill), the store
gains no extra record for the key, and when `tplA` is non-empty the
command template still equals `tplA` even if `tplB` is a different
non-empty template. -/
theorem thread_continuity (m0 : Manager) (T uA uB tplA tplB : Str) (now1 now2 : Int)
    (hT : T ≠ []) (hfresh : mapFind m0.sessions (GetSessionKey T uA) = none) :
    (GetOrCreateSession (GetOrCreateSession m0 T uA tplA now1).1 T uB tplB now2).2 =
      { (GetOrCreateSession m0 T uA tplA now1).2 with
        LastActivity := now2
        Command :=
          if tplB ≠ [] ∧ (GetOrCreateSession m0 T uA tplA now1).2.Command = []
          then tplB else (GetOrCreateSession m0 T uA tplA now1).2.Command } ∧
    (tplA ≠ [] →
      (GetOrCreateSession (GetOrCreateSession m0 T uA tplA now1).1 T uB tplB now2).2.Command
        = tplA) ∧
    (GetOrCreateSession (GetOrCreateSession m0 T uA tplA now1).1 T uB tplB now2).1.sessions.length
      = (GetOrCreateSession m0 T uA tplA now1).1.sessions.length := by
  have hkey : GetSessionKey T uB = GetSessionKey T uA := by
    simp [GetSessionKey, hT]
  have h1 := getOrCreate_fresh m0 T uA tplA now1 hfresh
  simp only [] at h1
  have hs1 : (GetOrCreateSession m0 T uA tplA now1).2.Command = tplA := by
    rw [h1]
  have hfound : mapFind (GetOrCreateSession m0 T uA tplA now1).1.sessions
      (GetSessionKey T uB) = some (GetOrCreateSession m0 T uA tplA now1).2 := by
    rw [hkey, h1]
    exact mapFind_insert_self m0.sessions (GetSessionKey T uA) _
  have h2 := getOrCreate_found (GetOrCreateSession m0 T uA tplA now1).1 T uB tplB now2
    (GetOrCreateSession m0 T uA tplA now1).2 hfound
  simp only [] at h2
  refine ⟨by rw [h2], ?_, ?_⟩
  · intro htplA
    rw [h2]
    show (if tplB ≠ [] ∧ (GetOrCreateSession m0 T uA tplA now1).2.Command = []
          then tplB else (GetOrCreateSession m0 T uA tplA now1).2.Command) = tplA
    rw [hs1, if_neg (fun hand => htplA hand.2)]
  · rw [h2]
    show (mapInsert (GetOrCreateSession m0 T uA tplA now1).1.sessions
        (GetSessionKey T uB) _).length = _
    exact mapInsert_length_of_found _ _ _ _ hfound

/-- Witness for C7 at concrete inputs. -/
theorem thread_continuity_witness :
    ((GetOrCreateSession (GetOrCreateSession mgr0 ("$t2".toList) ("@alice:example.org".toList)
        ("pi ".toList ++ msgMarker) 0).1 ("$t2".toList) ("@bob:example.org".toList)
        ("cat ".toList ++ ctxMarker) 5).2 =
      { (GetOrCreateSession mgr0 ("$t2".toList) ("@alice:example.org".toList)
          ("pi ".toList ++ msgMarker) 0).2 with
        LastActivity := 5
        Command :=
          if ("cat ".toList ++ ctxMarker) ≠ [] ∧
             (GetOrCreateSession mgr0 ("$t2".toList) ("@alice:example.org".toList)
               ("pi ".toList ++ msgMarker) 0).2.Command = []
          then "cat ".toList ++ ctxMarker
          else (GetOrCreateSession mgr0 ("$t2".toList) ("@alice:example.org".toList)
            ("pi ".toList ++ msgMarker) 0).2.Command }) ∧
    (("pi ".toList ++ msgMarker) ≠ [] →
      (GetOrCreateSession (GetOrCreateSession mgr0 ("$t2".toList) ("@alice:example.org".toList)
        ("pi ".toList ++ msgMarker) 0).1 ("$t2".toList) ("@bob:example.org".toList)
        ("cat ".toList ++ ctxMarker) 5).2.Command = "pi ".toList ++ msgMarker) ∧
    (GetOrCreateSession (GetOrCreateSession mgr0 ("$t2".toList) ("@alice:example.org".toList)
        ("pi ".toList ++ msgMarker) 0).1 ("$t2".toList) ("@bob:example.org".toList)
        ("cat ".toList ++ ctxMarker) 5).1.sessions.length =
      (GetOrCreateSession mgr0 ("$t2".toList) ("@alice:example.org".toList)
        ("pi ".toList ++ msgMarker) 0).1.sessions.length :=
  thread_continuity mgr0 ("$t2".toList) ("@alice:example.org".toList)
    ("@bob:example.org".toList) ("pi ".toList ++ msgMarker) ("cat ".toList ++ ctxMarker)
    0 5 (by decide) (by decide)

/-! ## Claim C4: no-template failure, and context preservation on failure -/

/-- C4: when both the session template and the process default are empty,
`ExecuteCommand` fails with the "no command template configured" error and
behaves identically for every oracle — no external execution is attempted;
and on every failure path the session context is unchanged. -/
theorem execute_no_template_and_failure_keeps_context
    (m : Manager) (s : Session) (msg : Str) (now : Int) (run run' : Str → RunOutcome) :
    (s.Command = [] → m.defaultCommand = [] →
      ExecuteCommand m s msg now run =
        ({ s with LastActivity := now }, Except.error noTemplateMsg) ∧
      ExecuteCommand m s msg now run = ExecuteCommand m s msg now run') ∧
    (∀ e, (ExecuteCommand m s msg now run).2 = Except.error e →
      (ExecuteCommand m s msg now run).1.Context = s.Context) := by
  constructor
  · intro h1 h2
    have he : ∀ r : Str → RunOutcome,
        ExecuteCommand m s msg now r =
          ({ s with LastActivity := now }, Except.error noTemplateMsg) := by
      intro r
      unfold ExecuteCommand
      simp [h1, h2]
    exact ⟨he run, by rw [he run, he run']⟩
  · intro e
    unfold ExecuteCommand
    simp only []
    repeat' split
    all_goals intro hfail
    all_goals try rfl
    all_goals simp at hfail

/-- Session fixture with no command template. -/
def sessNoTpl : Session :=
  { ID := "k0".toList
    UserID := "@u:x".toList
    ThreadRootEvent := []
    LastActivity := 0
    Context := "old".toList
    Command := []
    SessionFile := "/tmp/pi-sessions/thread_k0.jsonl".toList }

/-- Session fixture with an echo template. -/
def sessEcho : Session :=
  { ID := "k1".toList
    UserID := "@u:x".toList
    ThreadRootEvent := []
    LastActivity := 0
    Context := "old".toList
    Command := "echo ".toList ++ msgMarker
    SessionFile := "/tmp/pi-sessions/thread_k1.jsonl".toList }

/-- Oracle fixture: the command exits non-zero with some output. -/
def runBoom : Str → RunOutcome :=
  fun _ => RunOutcome.completed ("out".toList) (some ("exit status 1".toList))

/-- Oracle fixture: the command succeeds and prints `hi`. -/
def runOk : Str → RunOutcome := fun _ => RunOutcome.completed ("hi".toList) none

/-- Witness for C4 at concrete inputs: the no-template error, and a
non-zero exit leaving the context unchanged. -/
theorem execute_no_template_witness :
    (ExecuteCommand mgr0 sessNoTpl [] 3 runBoom =
      ({ sessNoTpl with LastActivity := 3 }, Except.error noTemplateMsg) ∧
     ExecuteCommand mgr0 sessNoTpl [] 3 runBoom = ExecuteCommand mgr0 sessNoTpl [] 3 runOk) ∧
    (ExecuteCommand mgr0 sessEcho ("m".toList) 4 runBoom).1.Context = sessEcho.Context :=
  ⟨(execute_no_template_and_failure_keeps_context mgr0 sessNoTpl [] 3 runBoom runOk).1
      rfl rfl,
   (execute_no_template_and_failure_keeps_context mgr0 sessEcho ("m".toList) 4
      runBoom runBoom).2
      ("command failed: ".toList ++ "exit status 1".toList ++ " - ".toList ++ "out".toList)
      (by decide)⟩

/-! ## Claim C5: success overwrites the context with the returned output -/

/-- C5: when the effective template is non-empty and the external command
completes without error with combined output `out`, `ExecuteCommand`
returns exactly `out`, overwrites the session context with `out`
(replacing the previous value), and sets `lastActivity` to the call-start
time. -/
theorem execute_success_overwrites_context
    (m : Manager) (s : Session) (msg : Str) (now : Int) (run : Str → RunOutcome) (out : Str)
    (htpl : (if s.Command = [] then m.defaultCommand else s.Command) ≠ [])
    (hrun : run (expandTemplate (if s.Command = [] then m.defaultCommand else s.Command)
        msg s.Context s.SessionFile) = RunOutcome.completed out none) :
    ExecuteCommand m s msg now run =
      ({ s with LastActivity := now, Context := out }, Except.ok out) := by
  unfold ExecuteCommand
  simp only []
  rw [if_neg htpl, hrun]

/-- Witness for C5 at concrete inputs. -/
theorem execute_success_witness :
    ExecuteCommand mgr0 sessEcho ("m".toList) 5 runOk =
      ({ sessEcho with LastActivity := 5, Context := "hi".toList }, Except.ok ("hi".toList)) :=
  execute_success_overwrites_context mgr0 sessEcho ("m".toList) 5 runOk ("hi".toList)
    (by decide) rfl

/-! ## Claim C3 (corrected): substitution is sequential, not single-pass -/

/-- Modelled from the spec's words (claim C3, "substituted textually, in
any order"): the same three literal-marker replacements applied in the
order CONTEXT, then MESSAGE, then SESSION. -/
def expandTemplateCtxFirst (tpl message context sessionFile : Str) : Str :=
  replaceAll
    (replaceAll
      (replaceAll tpl ctxMarker (shellEscape context))
      msgMarker (shellEscape message))
    sessMarker (shellEscape sessionFile)

/-- C3 counterexample: with template `\x7b\x7b.MESSAGE\x7d\x7d`, message
`\x7b\x7b.CONTEXT\x7d\x7d`, context `X` and empty side-file path, the
source's substitution order and the CONTEXT-first order give different
results, refuting order-independence (the substituted message is rescanned
by the later CONTEXT pass). -/
theorem expand_order_counterexample :
    expandTemplate msgMarker ctxMarker ['X'] [] ≠
      expandTemplateCtxFirst msgMarker ctxMarker ['X'] [] := by
  decide

/-- C3 amended: expansion is three sequential whole-string replacements in
the fixed order MESSAGE, CONTEXT, SESSION, and a substituted value that
contains the literal text of a placeholder replaced later IS rescanned:
for every context value `ctx` (and any side-file path whose escaped form
plays no role here), expanding the template consisting of just the MESSAGE
marker with the message consisting of just the CONTEXT marker yields the
escaped `ctx` wrapped in the quotes that wrapped the escaped message — the
marker inside the substituted message was replaced again. -/
theorem expand_rescans_later_markers (ctx sf : Str)
    (h : strContains ('\'' :: (shellEscape ctx ++ ['\''])) sessMarker = false) :
    expandTemplate msgMarker ctxMarker ctx sf = '\'' :: (shellEscape ctx ++ ['\'']) := by
  unfold expandTemplate
  rw [replaceAll_self msgMarker (shellEscape ctxMarker) (by decide)]
  rw [show shellEscape ctxMarker = '\'' :: (ctxMarker ++ ['\'']) from by decide]
  rw [replaceAll_miss ctxMarker (by decide) (shellEscape ctx) '\'' (ctxMarker ++ ['\''])
    (by decide)]
  rw [replaceAll_head ctxMarker (by decide) ['\''] (shellEscape ctx)]
  rw [replaceAll_miss ctxMarker (by decide) (shellEscape ctx) '\'' [] (by decide)]
  rw [replaceAll_empty_input ctxMarker (shellEscape ctx) (by decide)]
  exact replaceAll_not_contained sessMarker (by decide) (shellEscape sf) _ h

/-- Witness for the amended C3 at concrete inputs. -/
theorem expand_rescans_witness :
    expandTemplate msgMarker ctxMarker ['X'] ['f'] =
      '\'' :: (shellEscape ['X'] ++ ['\'']) :=
  expand_rescans_later_markers ['X'] ['f'] (by decide)

end session
